import Mathlib

/-! CraftLauncher — verification of the profile/account/install core

A shallow embedding, in Lean 4, of the pure logic of the CraftLauncher
repository (`src/profiles.py`, `src/auth.py`, `src/mod_sources.py`,
`src/launcher_core.py`, `src/ui/main_window.py`), together with proofs and
refutations of the specification's claims about it.

Conventions of the embedding:
* Python strings are Lean `String`s; character-level operations
  (`split("-", 1)`, `strip`, regex substitution) are modelled on `List Char`.
  Character classes from Python's regex / `str.lower()` are modelled with
  their ASCII meaning (every input the claims mention is ASCII).
* Python `None` becomes `Option.none`; Python truthiness of strings is made
  explicit (`""` is falsy).
* Byte strings are `List Nat` with every entry `< 256`.
* `gzip.compress`/`json.dumps` (resp. their inverses) from the standard
  library are modelled as an abstract, invertible serializer (`ManifestCodec`)
  whose stated facts are exactly the library guarantees the code relies on:
  round-tripping, byte range, and the RFC 1952 gzip member header
  `0x1f 0x8b` (Python's `gzip.decompress` rejects any stream that does not
  begin with it). URL-safe base64 is implemented concretely.
* Functions doing I/O (network installers, directory creation) are modelled
  by passing the external collaborator's behaviour as a function argument and
  recording the calls the code makes as an explicit event trace.
-/

namespace CraftLauncher

/-! ## Data model (src/profiles.py, src/auth.py)

`InstalledMod` and `Profile` mirror the dataclasses in `src/profiles.py`.
`installed_mods` is stored in the source as a list of dicts with exactly the
keys written by `ProfileManager.add_installed_mod`; `InstalledMod` models
such a dict (`mod_id`, `version_id`, `name` may be `None`). -/

structure InstalledMod where
  filename : String
  source : String
  mod_id : Option String := none
  version_id : Option String := none
  name : Option String := none
deriving Repr, DecidableEq

structure Profile where
  id : String
  name : String
  minecraft_version : String
  loader_type : Option String := none
  loader_version : Option String := none
  game_directory : Option String := none
  created_at : String := ""
  last_played : Option String := none
  icon : String := ""
  installed_mods : List InstalledMod := []
deriving Repr, DecidableEq

/-- Split a character list at the first `'-'`: `some (before, after)` when a
dash occurs, `none` otherwise.  Models Python's `s.split("-", 1)` (which
returns `[before, after]`, or `[s]` when there is no dash). -/
def breakOnDash : List Char → Option (List Char × List Char)
  | [] => none
  | c :: cs =>
    if c = '-' then some ([], cs)
    else (breakOnDash cs).map (fun p => (c :: p.1, p.2))

/-- `Profile.version_id` (src/profiles.py lines 59–79): the catalog-facing
version id a profile launches.  Python's `if self.loader_type and
self.loader_version` treats `None` and `""` as falsy, hence the explicit
empty-string tests. -/
def Profile.version_id (p : Profile) : String :=
  match p.loader_type, p.loader_version with
  | some lt, some lv =>
    if lt = "" ∨ lv = "" then p.minecraft_version
    else if lt = "fabric" then
      "fabric-loader-" ++ lv ++ "-" ++ p.minecraft_version
    else if lt = "quilt" then
      "quilt-loader-" ++ lv ++ "-" ++ p.minecraft_version
    else if lt = "forge" ∨ lt = "forge+optifine" then
      -- loader_version is stored as "<mc>-<build>"; reinsert "forge"
      match breakOnDash lv.toList with
      | some (a, b) => String.mk a ++ "-forge-" ++ String.mk b
      | none => lv
    else if lt = "neoforge" then
      "neoforge-" ++ lv
    else if lt = "optifine" then
      p.minecraft_version ++ "-OptiFine_" ++ lv
    else p.minecraft_version
  | _, _ => p.minecraft_version

/-! ## Profile directories (src/profiles.py lines 120–173)

`_sanitize_folder_name` applies `re.sub(r'[^\w\-]', '_', name)` then collapses
runs of `_` and strips `_` from both edges.  `\w` is modelled with its ASCII
meaning (letters, digits, underscore); all inputs of interest are ASCII. -/

/-- ASCII approximation of the regex class `[\w\-]`. -/
def isKeptChar (c : Char) : Bool := c.isAlphanum || c = '_' || c = '-'

/-- Python slicing `s[:n]` (by code points). -/
def takeChars (n : Nat) (s : String) : String := String.mk (s.toList.take n)

/-- Python `str.lower()`, modelled for ASCII. -/
def lowerString (s : String) : String := String.mk (s.toList.map Char.toLower)

/-- Collapse every run of consecutive underscores to a single one
(`re.sub(r'_+', '_', s)`). -/
def collapseUnderscores : List Char → List Char
  | [] => []
  | c :: rest =>
    let r := collapseUnderscores rest
    if c = '_' then
      match r with
      | '_' :: _ => r
      | _ => c :: r
    else c :: r

/-- Python `s.strip('_')`. -/
def stripEdgeUnderscores (cs : List Char) : List Char :=
  ((cs.dropWhile (· = '_')).reverse.dropWhile (· = '_')).reverse

/-- `ProfileManager._sanitize_folder_name`. -/
def sanitizeFolderName (name : String) : String :=
  String.mk (stripEdgeUnderscores (collapseUnderscores
    (name.toList.map (fun c => if isKeptChar c then c else '_'))))

/-- `ProfileManager.get_profile_directory`: the game directory derived for a
profile name, as a path string under the fixed profiles root.  (The `mkdir`
side effect is not part of the value.) -/
def getProfileDirectory (profilesDir : String) (profileName : String) : String :=
  profilesDir ++ "/" ++ sanitizeFolderName profileName

/-- `ProfileManager.create_profile` (src/profiles.py lines 136–173), with the
store state passed explicitly (`profiles` dict as a list) and the generated
`uuid4` id supplied by the caller.  If no `game_directory` is given (or it is
the empty, falsy string) the directory is derived from the name; note that
the derivation consults nothing but the name — no existing profile or
directory is taken into account. -/
def createProfile (profilesDir : String) (newId : String) (store : List Profile)
    (name minecraftVersion : String) (loaderType loaderVersion gameDirectory : Option String)
    (icon : String) : List Profile × Profile :=
  let dir := match gameDirectory with
    | some g => if g = "" then getProfileDirectory profilesDir name else g
    | none => getProfileDirectory profilesDir name
  let p : Profile :=
    { id := newId, name := name, minecraft_version := minecraftVersion
      loader_type := loaderType, loader_version := loaderVersion
      game_directory := some dir, icon := icon }
  (store ++ [p], p)

/-! ## Accounts (src/auth.py)

`Account` mirrors the dataclass; `expires_at` (a Unix timestamp, a Python
float) is modelled as an integer number of seconds — the only operation on
it is comparison against `time.time() - 60`.  The spec's vocabulary maps as:
kind Local = `"offline"`, playerId = `uuid`. -/

structure Account where
  type : String
  username : String
  uuid : String := ""
  access_token : String := ""
  refresh_token : String := ""
  expires_at : Int := 0
deriving Repr, DecidableEq

/-- `Account.is_expired` (src/auth.py lines 54–58), with the current time
passed explicitly. -/
def Account.is_expired (now : Int) (a : Account) : Bool :=
  if a.type = "offline" then false
  else now ≥ a.expires_at - 60

/-- The in-memory state of `AuthManager`: the account list and the active
account (Python keeps an object reference; operations compare accounts by
field contents, which is what all the code under proof does). -/
structure AuthState where
  accounts : List Account
  active : Option Account
deriving Repr, DecidableEq

/-- `AuthManager.add_offline_account` (src/auth.py lines 162–186).  The
derived offline UUID (an MD5-based pure function of the username) is passed
in as `genUUID`; the claims under proof depend only on it being a function.
Python's `str.lower()` is modelled by `String.toLower` (ASCII). -/
def addOfflineAccount (genUUID : String → String) (st : AuthState) (username : String) :
    AuthState × Account :=
  match st.accounts.find? (fun a => a.type == "offline" && lowerString a.username == lowerString username) with
  | some acc => ({ st with active := some acc }, acc)
  | none =>
    let acc : Account := { type := "offline", username := username, uuid := genUUID username }
    ({ accounts := st.accounts ++ [acc], active := some acc }, acc)

/-- `AuthManager.remove_account` (src/auth.py lines 402–410): drops every
stored account whose `uuid` equals the removed account's `uuid`; if the
active account's `uuid` matches, the active pointer falls back to the first
remaining account (or to none). -/
def removeAccount (st : AuthState) (account : Account) : AuthState :=
  let accounts := st.accounts.filter (fun a => a.uuid != account.uuid)
  let active := match st.active with
    | some act => if act.uuid = account.uuid then accounts.head? else st.active
    | none => none
  { accounts := accounts, active := active }

/-! ## Profile install flow (src/ui/main_window.py lines 1433–1479,
src/launcher_core.py lines 122–152)

The `install()` closure inside `CreateProfileWindow._create_profile` drives a
profile install: it calls `LauncherCore.install_version(mc_version)` (which
returns `False` on any installer exception), raises — aborting the rest of
the flow — if that failed, and only then dispatches on the loader type to the
loader installers.  The external collaborators (the version catalog and the
per-loader installers) are passed in as functions returning their success
value, and every call the code makes is recorded, in order, in an event
trace.  `LauncherCore.delete_version` is the only version-removal operation
in the repository; it has its own event so that "no rollback" is expressible
over the trace. -/

inductive InstallEvent where
  | installBase (versionId : String)
  | installLoader (loaderType : String) (mcVersion : String) (loaderVersion : String)
  | installOptifineMod (mcVersion : String)
  | deleteVersion (versionId : String)
deriving Repr, DecidableEq

inductive InstallOutcome where
  | created
  | failed
deriving Repr, DecidableEq

/-- The body of `install()` in `CreateProfileWindow._create_profile`:
`baseInstall` is `LauncherCore.install_version`, `loaderInstall` is the
`ModManager.install_*` family (keyed by loader name), `optifineModInstall`
is `install_optifine_as_mod`.  Returns the ordered trace of collaborator
calls and whether the flow reached profile creation (`on_success`) or the
error handler.  A loader installer's falsy result is *not* checked by the
source (except to gate the OptiFine-as-mod step of `forge+optifine`); the
flow still reaches `on_success`. -/
def installProfileFlow (baseInstall : String → Bool)
    (loaderInstall : String → String → String → Bool)
    (optifineModInstall : String → Bool)
    (mcVersion loaderType loaderVersion : String) :
    List InstallEvent × InstallOutcome :=
  let base := [InstallEvent.installBase mcVersion]
  if ¬ baseInstall mcVersion then
    -- `raise RuntimeError("Failed to install Minecraft")` → error handler
    (base, .failed)
  else if loaderType = "vanilla" then
    (base, .created)
  else if loaderType = "fabric" ∨ loaderType = "forge" ∨ loaderType = "neoforge"
      ∨ loaderType = "quilt" ∨ loaderType = "optifine" then
    (base ++ [.installLoader loaderType mcVersion loaderVersion], .created)
  else if loaderType = "forge+optifine" then
    let r := loaderInstall "forge" mcVersion loaderVersion
    let ev := base ++ [InstallEvent.installLoader "forge" mcVersion loaderVersion]
    if r then
      -- `install_optifine_as_mod` is called; its failure is only logged
      let _ignored := optifineModInstall mcVersion
      (ev ++ [.installOptifineMod mcVersion], .created)
    else
      (ev, .created)
  else
    -- unknown loader string: no branch matches, `result` stays None
    (base, .created)

/-! ## Mod installation with dependencies (src/mod_sources.py lines 540–593) -/

structure ModDependency where
  id : String
  type : String
deriving Repr, DecidableEq

structure ModVersion where
  id : String
  mod_id : String
  name : String
  version_number : String
  minecraft_versions : List String
  loaders : List String
  download_url : String
  file_name : String
  file_size : Nat
  date_published : String
  source : String
  dependencies : List ModDependency
deriving Repr, DecidableEq

/-- The dependency loop of `ModSourceManager.install_mod_with_dependencies`:
for each dependency record of the *chosen* version, in order, a dependency
whose relation type is exactly `"required"` is resolved through
`getModVersions` (= `get_mod_versions(dep_id, source, minecraft_version,
loader)`, the catalog's compatible-version list) and, when that list is
non-empty, its first entry is downloaded.  Any other relation type
(`"optional"`, `"incompatible"`, `"tool"`, …) is skipped.  The dependency's
own dependency records are never consulted. -/
def installRequiredDeps (getModVersions : String → String → String → String → List ModVersion)
    (download : ModVersion → Option String)
    (source mcVersion loader : String) : List ModDependency → List String
  | [] => []
  | dep :: rest =>
    (if dep.type == "required" then
      match getModVersions dep.id source mcVersion loader with
      | [] => []
      | depVersion :: _ =>
        match download depVersion with
        | some p => [p]
        | none => []
    else []) ++ installRequiredDeps getModVersions download source mcVersion loader rest

/-- `ModSourceManager.install_mod_with_dependencies`: download the chosen
version into the mods directory, then run the dependency loop.  `download`
is `ModSourceManager.download_mod` (returns the installed path, or `None` on
failure); `getModVersions` is the mod-source catalog.  Returns the list of
installed file paths. -/
def installModWithDependencies
    (getModVersions : String → String → String → String → List ModVersion)
    (download : ModVersion → Option String)
    (version : ModVersion) (mcVersion loader : String) : List String :=
  (match download version with
    | some p => [p]
    | none => []) ++
  installRequiredDeps getModVersions download version.source mcVersion loader
    version.dependencies

/-! ## URL-safe base64 (Python `base64.urlsafe_b64encode` / `urlsafe_b64decode`)

Implemented concretely over byte lists (`List Nat`, entries `< 256`).  The
decoder mirrors CPython's non-strict behaviour on the inputs that occur in
this development: characters outside the alphabet (and `'='`) are discarded
up front, the remainder must fall into groups of four, and `'='` padding is
accepted only at the very end. -/

/-- The URL-safe alphabet: index 0–63 → character. -/
def b64Char (n : Nat) : Char :=
  if n < 26 then Char.ofNat (65 + n)
  else if n < 52 then Char.ofNat (97 + (n - 26))
  else if n < 62 then Char.ofNat (48 + (n - 52))
  else if n = 62 then '-'
  else '_'

/-- Character → alphabet index, `none` for non-alphabet characters. -/
def b64Val (c : Char) : Option Nat :=
  if 'A' ≤ c ∧ c ≤ 'Z' then some (c.toNat - 65)
  else if 'a' ≤ c ∧ c ≤ 'z' then some (c.toNat - 97 + 26)
  else if '0' ≤ c ∧ c ≤ '9' then some (c.toNat - 48 + 52)
  else if c = '-' then some 62
  else if c = '_' then some 63
  else none

/-- Encode a byte list, three bytes per four characters, `'='`-padded. -/
def b64EncodeChars : List Nat → List Char
  | b0 :: b1 :: b2 :: rest =>
    b64Char (b0 / 4) :: b64Char (b0 % 4 * 16 + b1 / 16) ::
      b64Char (b1 % 16 * 4 + b2 / 64) :: b64Char (b2 % 64) :: b64EncodeChars rest
  | [b0, b1] =>
    [b64Char (b0 / 4), b64Char (b0 % 4 * 16 + b1 / 16), b64Char (b1 % 16 * 4), '=']
  | [b0] =>
    [b64Char (b0 / 4), b64Char (b0 % 4 * 16), '=', '=']
  | [] => []

/-- Decode a pre-filtered character list in groups of four. -/
def b64DecodeGroups : List Char → Option (List Nat)
  | [] => some []
  | c0 :: c1 :: c2 :: c3 :: rest =>
    if c2 = '=' ∧ c3 = '=' ∧ rest = [] then
      match b64Val c0, b64Val c1 with
      | some v0, some v1 => some [v0 * 4 + v1 / 16]
      | _, _ => none
    else if c3 = '=' ∧ rest = [] then
      match b64Val c0, b64Val c1, b64Val c2 with
      | some v0, some v1, some v2 => some [v0 * 4 + v1 / 16, v1 % 16 * 16 + v2 / 4]
      | _, _, _ => none
    else
      match b64Val c0, b64Val c1, b64Val c2, b64Val c3 with
      | some v0, some v1, some v2, some v3 =>
        (b64DecodeGroups rest).map
          (fun tail => (v0 * 4 + v1 / 16) :: (v1 % 16 * 16 + v2 / 4) :: (v2 % 4 * 64 + v3) :: tail)
      | _, _, _, _ => none
  | _ => none

/-- A character the decoder keeps: alphabet member or padding. -/
def b64Kept (c : Char) : Bool := (b64Val c).isSome || c = '='

def urlsafeB64Encode (bs : List Nat) : List Char := b64EncodeChars bs

def urlsafeB64Decode (cs : List Char) : Option (List Nat) :=
  b64DecodeGroups (cs.filter b64Kept)

/-! ## The share-code manifest (src/profiles.py lines 496–589)

`generate_manifest_code` builds the dict
`{"v": 1, "name": …, "mc": …, "loader": …, "loader_v": …, "mods": […]}`,
serializes it with `json.dumps`, compresses with `gzip.compress` and encodes
with `urlsafe_b64encode`.  `Manifest`/`ShareMod` model that dict;
`ManifestCodec` models the `json.dumps`-then-`gzip.compress` leg (and its
inverse) abstractly, with exactly the library facts the code relies on. -/

structure ShareMod where
  id : String
  src : String
  v : Option String
  n : String
deriving Repr, DecidableEq

structure Manifest where
  v : Nat
  name : String
  mc : String
  loader : Option String
  loader_v : Option String
  mods : List ShareMod
deriving Repr, DecidableEq

/-- The serialize-then-compress leg of the pipeline, abstract.  `ser` is
`gzip.compress(json.dumps(manifest).encode("utf-8"))`; `deser` is
`json.loads(gzip.decompress(bytes))` restricted to well-formed manifests
(the only payloads the claims concern).  The three facts are the standard
library's guarantees: lossless round trip, byte-valued output, and the
RFC 1952 member header `0x1f 0x8b` that `gzip.compress` always emits and
without which `gzip.decompress` raises (`parse_manifest_code` turns that
exception into `None`). -/
structure ManifestCodec where
  ser : Manifest → List Nat
  deser : List Nat → Option Manifest
  ser_lt : ∀ m, ∀ b ∈ ser m, b < 256
  roundtrip : ∀ m, deser (ser m) = some m
  gzip_magic : ∀ m, (ser m).take 2 = [31, 139]
  deser_magic : ∀ bs, bs.take 2 ≠ [31, 139] → deser bs = none

/-- The filter applied by `generate_manifest_code` (lines 509–519): a mod is
shareable when its `source` is `"modrinth"` or `"curseforge"` *and* its
`mod_id` is truthy (present and non-empty). -/
def shareableMod (m : InstalledMod) : Bool :=
  (m.source == "modrinth" || m.source == "curseforge") &&
  (match m.mod_id with
    | some s => s != ""
    | none => false)

/-- Building the `"mods"` entries.  For a shareable mod the source evaluates
`mod.get("name", "")[:30]`; the stored dict always carries a `"name"` key, so
a stored `None` reaches the slice and raises `TypeError` — this loop runs
*outside* the function's `try` block, so that exception escapes
`generate_manifest_code` entirely, modelled as `none`. -/
def buildShareMods : List InstalledMod → Option (List ShareMod)
  | [] => some []
  | m :: rest =>
    if shareableMod m then
      match m.name with
      | none => none
      | some nm =>
        (buildShareMods rest).map (fun tail =>
          { id := m.mod_id.getD "", src := if m.source == "modrinth" then "mr" else "cf"
            v := m.version_id, n := takeChars 30 nm } :: tail)
    else buildShareMods rest

/-- Result of `generate_manifest_code`: a code, or the uncaught `TypeError`
described at `buildShareMods`. -/
inductive GenResult where
  | code (s : String)
  | typeError
deriving Repr, DecidableEq

/-- The manifest dict built by `generate_manifest_code` (lines 521–528):
`MANIFEST_CODE_VERSION = 1`, profile name truncated to 50 characters. -/
def manifestOf (p : Profile) (mods : List ShareMod) : Manifest :=
  { v := 1, name := takeChars 50 p.name, mc := p.minecraft_version
    loader := p.loader_type, loader_v := p.loader_version, mods := mods }

/-- `ProfileManager.generate_manifest_code` (lines 496–540) for an existing
profile.  The pipeline output carries the leading `"CL1-"` tag. -/
def generateManifestCode (codec : ManifestCodec) (p : Profile) : GenResult :=
  match buildShareMods p.installed_mods with
  | none => .typeError
  | some mods =>
    .code ("CL1-" ++ String.mk (urlsafeB64Encode (codec.ser (manifestOf p mods))))

/-- A decoded `"mods"` entry as `parse_manifest_code` returns it. -/
structure DecodedMod where
  mod_id : String
  source : String
  version_id : Option String
  name : String
deriving Repr, DecidableEq

/-- The dict returned by `parse_manifest_code`. -/
structure DecodedProfile where
  name : String
  minecraft_version : String
  loader_type : Option String
  loader_version : Option String
  mods : List DecodedMod
deriving Repr, DecidableEq

/-- Python `s.startswith(p)`, on character lists. -/
def startsWithChars : List Char → List Char → Bool
  | _, [] => true
  | [], _ :: _ => false
  | c :: cs, p :: ps => c = p && startsWithChars cs ps

/-- The tag-stripping step of `parse_manifest_code` (lines 551–558): an exact
`"CL1-"` tag is dropped; otherwise a code beginning with `"CL"` is split on
the *first* `"-"` and the part after it kept (unchanged when it has no dash);
any other input is left untouched. -/
def stripShareTag (cs : List Char) : List Char :=
  if startsWithChars cs ['C', 'L', '1', '-'] then cs.drop 4
  else if startsWithChars cs ['C', 'L'] then
    match breakOnDash cs with
    | some p => p.2
    | none => cs
  else cs

/-- `ShareMod` → decoded entry (lines 570–578): `src == "mr"` means
`"modrinth"`, anything else means `"curseforge"`. -/
def expandShareMod (sm : ShareMod) : DecodedMod :=
  { mod_id := sm.id
    source := if sm.src == "mr" then "modrinth" else "curseforge"
    version_id := sm.v
    name := sm.n }

/-- The tag-free decoding pipeline of `parse_manifest_code` (lines 560–586):
base64, then gunzip+JSON, then field expansion.  Every failure inside the
`try` block becomes `None`.  A decoded manifest whose `v` differs from 1 is
only logged, never rejected. -/
def parsePipeline (codec : ManifestCodec) (payload : List Char) : Option DecodedProfile :=
  match urlsafeB64Decode payload with
  | none => none
  | some bytes =>
    match codec.deser bytes with
    | none => none
    | some manifest =>
      some { name := manifest.name
             minecraft_version := manifest.mc
             loader_type := manifest.loader
             loader_version := manifest.loader_v
             mods := manifest.mods.map expandShareMod }

/-- `ProfileManager.parse_manifest_code` (lines 542–589): strip the tag,
then run the decoding pipeline. -/
def parseManifestCode (codec : ManifestCodec) (code : String) : Option DecodedProfile :=
  parsePipeline codec (stripShareTag code.toList)

/-! ## A concrete `ManifestCodec` witness

Claims quantified over the codec are exercised on a concrete instance.  The
instance serializes a `Manifest` injectively into bytes behind the gzip
member header `0x1f 0x8b`, so it satisfies every field of `ManifestCodec`;
any such codec stands in for the real `json.dumps`+`gzip.compress` leg. -/

/-- Little-endian base-256 digits, structurally recursive on a fuel bound
(`natBytesLE` instantiates the fuel with the number itself, which always
suffices). -/
def natBytesLEAux : Nat → Nat → List Nat
  | _, 0 => []
  | 0, _ + 1 => []
  | fuel + 1, n + 1 => (n + 1) % 256 :: natBytesLEAux fuel ((n + 1) / 256)

/-- Little-endian base-256 digits of a natural number (empty for 0). -/
def natBytesLE (n : Nat) : List Nat := natBytesLEAux n n

/-- Rebuild a natural number from little-endian base-256 digits. -/
def natFromLE : List Nat → Nat
  | [] => 0
  | b :: bs => b + 256 * natFromLE bs

/-- A self-delimiting byte sequence: each byte tagged with `1`, closed by `0`. -/
def encByteSeq : List Nat → List Nat
  | [] => [0]
  | b :: rest => 1 :: b :: encByteSeq rest

def readByteSeq : List Nat → Option (List Nat × List Nat)
  | 0 :: rest => some ([], rest)
  | 1 :: b :: rest => (readByteSeq rest).map (fun p => (b :: p.1, p.2))
  | _ => none

def encNatM (n : Nat) : List Nat := encByteSeq (natBytesLE n)

def readNatM (l : List Nat) : Option (Nat × List Nat) :=
  (readByteSeq l).map (fun p => (natFromLE p.1, p.2))

/-- A character as four big-endian bytes of its code point. -/
def encCharM (c : Char) : List Nat :=
  [c.toNat / 16777216, c.toNat / 65536 % 256, c.toNat / 256 % 256, c.toNat % 256]

/-- A character sequence: each character tagged with `1`, closed by `0`. -/
def encCharSeq : List Char → List Nat
  | [] => [0]
  | c :: rest => 1 :: encCharM c ++ encCharSeq rest

/-- A string: each character tagged with `1`, closed by `0`. -/
def encStringM (s : String) : List Nat := encCharSeq s.toList

def readCharsM : List Nat → Option (List Char × List Nat)
  | 0 :: rest => some ([], rest)
  | 1 :: a :: b :: c :: d :: rest =>
    (readCharsM rest).map
      (fun p => (Char.ofNat (a * 16777216 + b * 65536 + c * 256 + d) :: p.1, p.2))
  | _ => none

def readStringM (l : List Nat) : Option (String × List Nat) :=
  (readCharsM l).map (fun p => (String.mk p.1, p.2))

def encOptStrM : Option String → List Nat
  | none => [0]
  | some s => 1 :: encStringM s

def readOptStrM : List Nat → Option (Option String × List Nat)
  | 0 :: rest => some (none, rest)
  | 1 :: rest => (readStringM rest).map (fun p => (some p.1, p.2))
  | _ => none

def encModM (m : ShareMod) : List Nat :=
  encStringM m.id ++ encStringM m.src ++ encOptStrM m.v ++ encStringM m.n

def readModM (l : List Nat) : Option (ShareMod × List Nat) :=
  match readStringM l with
  | none => none
  | some (i, r1) =>
    match readStringM r1 with
    | none => none
    | some (src, r2) =>
      match readOptStrM r2 with
      | none => none
      | some (v, r3) =>
        match readStringM r3 with
        | none => none
        | some (n, r4) => some ({ id := i, src := src, v := v, n := n }, r4)

def encModSeq : List ShareMod → List Nat
  | [] => []
  | m :: rest => encModM m ++ encModSeq rest

/-- A mod list: element count first, then the elements back to back. -/
def encModsM (l : List ShareMod) : List Nat :=
  encNatM l.length ++ encModSeq l

/-- Read exactly `n` mods. -/
def readModsN : Nat → List Nat → Option (List ShareMod × List Nat)
  | 0, l => some ([], l)
  | n + 1, l =>
    match readModM l with
    | none => none
    | some (m, r) => (readModsN n r).map (fun p => (m :: p.1, p.2))

def encManifestBody (m : Manifest) : List Nat :=
  encNatM m.v ++ encStringM m.name ++ encStringM m.mc ++
    encOptStrM m.loader ++ encOptStrM m.loader_v ++ encModsM m.mods

def readManifestM (l : List Nat) : Option (Manifest × List Nat) :=
  match readNatM l with
  | none => none
  | some (v, r1) =>
    match readStringM r1 with
    | none => none
    | some (name, r2) =>
      match readStringM r2 with
      | none => none
      | some (mc, r3) =>
        match readOptStrM r3 with
        | none => none
        | some (loader, r4) =>
          match readOptStrM r4 with
          | none => none
          | some (loader_v, r5) =>
            match readNatM r5 with
            | none => none
            | some (count, r6) =>
              match readModsN count r6 with
              | none => none
              | some (mods, r7) =>
                some ({ v := v, name := name, mc := mc, loader := loader
                        loader_v := loader_v, mods := mods }, r7)

def mockSer (m : Manifest) : List Nat := 31 :: 139 :: encManifestBody m

def mockDeser : List Nat → Option Manifest
  | b0 :: b1 :: body =>
    if b0 = 31 ∧ b1 = 139 then
      match readManifestM body with
      | some (m, []) => some m
      | _ => none
    else none
  | _ => none

/-! ## Helper lemmas -/

theorem optMatch_eq_toList (o : Option String) :
    (match o with
      | some p => [p]
      | none => ([] : List String)) = o.toList := by
  cases o <;> rfl

theorem breakOnDash_of_split (a b : List Char) (ha : '-' ∉ a) :
    breakOnDash (a ++ '-' :: b) = some (a, b) := by
  induction a with
  | nil => simp [breakOnDash]
  | cons c cs ih =>
    simp only [List.mem_cons, not_or] at ha
    have hc : c ≠ '-' := fun h' => ha.1 h'.symm
    simp [breakOnDash, hc, ih ha.2]

theorem breakOnDash_of_none (l : List Char) (h : '-' ∉ l) :
    breakOnDash l = none := by
  induction l with
  | nil => rfl
  | cons c cs ih =>
    simp only [List.mem_cons, not_or] at h
    have hc : c ≠ '-' := fun h' => h.1 h'.symm
    simp [breakOnDash, hc, ih h.2]

/-! ## C1 — the resolved version id -/

/-- C1.  `Profile.version_id` is computed case by case exactly as the spec
states: vanilla passes `minecraft_version` through; fabric/quilt emit
`"<kind>-loader-<loaderVersion>-<gameVersion>"`; forge splits the stored
loader version at its first dash into `(a, b)` and emits `"<a>-forge-<b>"`;
neoforge emits `"neoforge-<loaderVersion>"`; optifine emits
`"<gameVersion>-OptiFine_<loaderVersion>"`. -/
theorem claim_C1 (p : Profile) (lv : String) (a b : List Char) :
    (p.loader_type = none → p.version_id = p.minecraft_version) ∧
    (p.loader_type = some "fabric" → p.loader_version = some lv → lv ≠ "" →
      p.version_id = "fabric-loader-" ++ lv ++ "-" ++ p.minecraft_version) ∧
    (p.loader_type = some "quilt" → p.loader_version = some lv → lv ≠ "" →
      p.version_id = "quilt-loader-" ++ lv ++ "-" ++ p.minecraft_version) ∧
    (p.loader_type = some "forge" → p.loader_version = some lv →
      lv.toList = a ++ '-' :: b → '-' ∉ a →
      p.version_id = String.mk a ++ "-forge-" ++ String.mk b) ∧
    (p.loader_type = some "neoforge" → p.loader_version = some lv → lv ≠ "" →
      p.version_id = "neoforge-" ++ lv) ∧
    (p.loader_type = some "optifine" → p.loader_version = some lv → lv ≠ "" →
      p.version_id = p.minecraft_version ++ "-OptiFine_" ++ lv) := by
  refine ⟨?_, ?_, ?_, ?_, ?_, ?_⟩
  · intro h1
    simp [Profile.version_id, h1]
  · intro h1 h2 h3
    simp [Profile.version_id, h1, h2, h3]
  · intro h1 h2 h3
    simp [Profile.version_id, h1, h2, h3]
  · intro h1 h2 h3 h4
    have hlv : lv ≠ "" := by
      intro he
      rw [he] at h3
      exact absurd h3.symm (List.append_ne_nil_of_right_ne_nil a (by simp))
    have h3' : lv.data = a ++ '-' :: b := h3
    simp [Profile.version_id, h1, h2, hlv, h3', breakOnDash_of_split a b h4]
  · intro h1 h2 h3
    simp [Profile.version_id, h1, h2, h3]
  · intro h1 h2 h3
    simp [Profile.version_id, h1, h2, h3]

def c1Forge : Profile :=
  { id := "a", name := "a", minecraft_version := "1.20.1"
    loader_type := some "forge", loader_version := some "1.20.1-47.2.0" }

def c1Fabric : Profile :=
  { id := "b", name := "b", minecraft_version := "1.20.1"
    loader_type := some "fabric", loader_version := some "0.15.7" }

def c1Quilt : Profile :=
  { id := "c", name := "c", minecraft_version := "1.20.1"
    loader_type := some "quilt", loader_version := some "0.23.1" }

def c1Neo : Profile :=
  { id := "d", name := "d", minecraft_version := "1.20.4"
    loader_type := some "neoforge", loader_version := some "20.4.237" }

def c1Opti : Profile :=
  { id := "e", name := "e", minecraft_version := "1.21"
    loader_type := some "optifine", loader_version := some "HD_U_J1" }

def c1Vanilla : Profile :=
  { id := "f", name := "f", minecraft_version := "1.20.1" }

theorem claim_C1_witness :
    c1Vanilla.version_id = "1.20.1" ∧
    c1Forge.version_id = "1.20.1-forge-47.2.0" ∧
    c1Fabric.version_id = "fabric-loader-0.15.7-1.20.1" ∧
    c1Quilt.version_id = "quilt-loader-0.23.1-1.20.1" ∧
    c1Neo.version_id = "neoforge-20.4.237" ∧
    c1Opti.version_id = "1.21-OptiFine_HD_U_J1" := by
  refine ⟨?_, ?_, ?_, ?_, ?_, ?_⟩
  · exact (claim_C1 c1Vanilla "" [] []).1 rfl
  · exact (claim_C1 c1Forge "1.20.1-47.2.0" "1.20.1".toList "47.2.0".toList).2.2.2.1
      rfl rfl rfl (by decide)
  · exact (claim_C1 c1Fabric "0.15.7" [] []).2.1 rfl rfl (by decide)
  · exact (claim_C1 c1Quilt "0.23.1" [] []).2.2.1 rfl rfl (by decide)
  · exact (claim_C1 c1Neo "20.4.237" [] []).2.2.2.2.1 rfl rfl (by decide)
  · exact (claim_C1 c1Opti "HD_U_J1" [] []).2.2.2.2.2 rfl rfl (by decide)

/-! ## C10 — fallbacks of the version-id computation -/

/-- C10.  `Profile.version_id` is a total function with the fallbacks the
claim describes: a set `loader_type` with an unset (Python-falsy: `None` or
`""`) `loader_version` resolves to the plain game version, and a forge
loader version with no dash is returned unchanged. -/
theorem claim_C10 (p : Profile) (k lv : String) :
    (p.loader_type = some k → (p.loader_version = none ∨ p.loader_version = some "") →
      p.version_id = p.minecraft_version) ∧
    (p.loader_type = some "forge" → p.loader_version = some lv → lv ≠ "" →
      '-' ∉ lv.toList → p.version_id = lv) := by
  constructor
  · rintro h1 (h2 | h2) <;> simp [Profile.version_id, h1, h2]
  · intro h1 h2 h3 h4
    have h4' : '-' ∉ lv.data := h4
    simp [Profile.version_id, h1, h2, h3, breakOnDash_of_none _ h4']

def c10NoVer : Profile :=
  { id := "g", name := "g", minecraft_version := "1.20.1"
    loader_type := some "fabric", loader_version := none }

def c10ForgeNoDash : Profile :=
  { id := "h", name := "h", minecraft_version := "1.20.1"
    loader_type := some "forge", loader_version := some "47.2.0" }

theorem claim_C10_witness :
    c10NoVer.version_id = "1.20.1" ∧ c10ForgeNoDash.version_id = "47.2.0" := by
  constructor
  · exact (claim_C10 c10NoVer "fabric" "").1 rfl (Or.inl rfl)
  · exact (claim_C10 c10ForgeNoDash "forge" "47.2.0").2 rfl rfl (by decide) (by decide)

/-! ## C7 — token expiry -/

/-- C7.  `Account.is_expired` is `false` for a Local (`"offline"`) account
no matter what `expires_at` holds, and for every other kind it is `true`
exactly when the current time has reached `expires_at - 60`. -/
theorem claim_C7 (now : Int) (a : Account) :
    (a.type = "offline" → a.is_expired now = false) ∧
    (a.type ≠ "offline" → (a.is_expired now = true ↔ now ≥ a.expires_at - 60)) := by
  constructor
  · intro h
    simp [Account.is_expired, h]
  · intro h
    simp [Account.is_expired, h]

def c7Local : Account := { type := "offline", username := "steve", expires_at := 0 }

def c7Remote : Account := { type := "microsoft", username := "alex", expires_at := 1000 }

theorem claim_C7_witness :
    c7Local.is_expired 999999 = false ∧
    (c7Remote.is_expired 950 = true ↔ (950 : Int) ≥ 1000 - 60) := by
  constructor
  · exact (claim_C7 999999 c7Local).1 rfl
  · exact (claim_C7 950 c7Remote).2 (by decide)

/-! ## C9 — equal profile names collide on one data directory

The spec requires the two directories never to collide, but
`create_profile` derives the directory from the name alone
(`get_profile_directory` → `_sanitize_folder_name`) without consulting the
existing profiles or disambiguating, so a second profile named `"My World"`
receives *the same* `profiles/My_World` directory as the first and shares its
folder contents.  (`import_profile` does disambiguate names, lines 358–366,
which shows collision avoidance is intended.) -/

def c9Pair1 : List Profile × Profile :=
  createProfile "profiles" "id1" [] "My World" "1.20.1" none none none "g"

def c9Pair2 : List Profile × Profile :=
  createProfile "profiles" "id2" c9Pair1.1 "My World" "1.20.1" none none none "g"

/-- C9 (code bug, evaluated at the failing input).  Two distinct profiles
created under the same name `"My World"` are assigned the identical data
directory `"profiles/My_World"`. -/
theorem claim_C9 :
    c9Pair2.2.game_directory = c9Pair1.2.game_directory ∧
    c9Pair1.2.game_directory = some "profiles/My_World" ∧
    c9Pair1.2.id ≠ c9Pair2.2.id := by
  refine ⟨rfl, rfl, by decide⟩

/-! ## C3 — adding a Local account is idempotent up to case -/

/-- C3.  For case-insensitively equal usernames, `add_offline_account(u1)`
followed by `add_offline_account(u2)` returns the very same stored account
(hence the same derived identifier), adds no second entry, and leaves that
account active; the second call always succeeds. -/
theorem claim_C3 (genUUID : String → String) (st : AuthState) (u1 u2 : String)
    (h : lowerString u1 = lowerString u2) :
    (addOfflineAccount genUUID (addOfflineAccount genUUID st u1).1 u2).2
      = (addOfflineAccount genUUID st u1).2 ∧
    (addOfflineAccount genUUID (addOfflineAccount genUUID st u1).1 u2).1.accounts
      = (addOfflineAccount genUUID st u1).1.accounts ∧
    (addOfflineAccount genUUID (addOfflineAccount genUUID st u1).1 u2).1.active
      = some (addOfflineAccount genUUID st u1).2 := by
  have hpred : (fun a : Account => a.type == "offline" && lowerString a.username == lowerString u2)
      = (fun a : Account => a.type == "offline" && lowerString a.username == lowerString u1) := by
    funext a
    rw [h]
  cases hfind : st.accounts.find?
      (fun a => a.type == "offline" && lowerString a.username == lowerString u1) with
  | some acc =>
    have h1 : addOfflineAccount genUUID st u1 = ({ st with active := some acc }, acc) := by
      unfold addOfflineAccount
      rw [hfind]
    have h2 : addOfflineAccount genUUID { st with active := some acc } u2
        = ({ st with active := some acc }, acc) := by
      unfold addOfflineAccount
      simp only [hpred, hfind]
    rw [h1, h2]
    exact ⟨rfl, rfl, rfl⟩
  | none =>
    set acc : Account := { type := "offline", username := u1, uuid := genUUID u1 } with hacc
    have h1 : addOfflineAccount genUUID st u1
        = ({ accounts := st.accounts ++ [acc], active := some acc }, acc) := by
      unfold addOfflineAccount
      rw [hfind]
    have hsingle : [acc].find?
        (fun a => a.type == "offline" && lowerString a.username == lowerString u1)
        = some acc := by
      simp [List.find?, hacc]
    have h2 : addOfflineAccount genUUID { accounts := st.accounts ++ [acc], active := some acc } u2
        = ({ accounts := st.accounts ++ [acc], active := some acc }, acc) := by
      unfold addOfflineAccount
      simp only [hpred, List.find?_append, hfind, hsingle, Option.none_or]
    rw [h1, h2]
    exact ⟨rfl, rfl, rfl⟩

def c3State : AuthState :=
  { accounts := [{ type := "microsoft", username := "Steve", uuid := "m1" }], active := none }

theorem claim_C3_witness :
    lowerString "Steve" = lowerString "sTeVe" ∧
    (addOfflineAccount (fun u => u ++ "-uuid") (addOfflineAccount (fun u => u ++ "-uuid") c3State "Steve").1 "sTeVe").2
      = (addOfflineAccount (fun u => u ++ "-uuid") c3State "Steve").2 := by
  constructor
  · rfl
  · exact (claim_C3 (fun u => u ++ "-uuid") c3State "Steve" "sTeVe" rfl).1

/-! ## C8 — removing accounts and the active pointer

`remove_account` filters the stored list by `uuid` alone, while `playerId`
(`uuid`) uniqueness is only per `kind`: a Local and a Microsoft account may
legitimately share a `uuid`.  Removing a *non-active* account that shares
the active account's `uuid` therefore resets the active pointer (and also
deletes the active account), refuting the claim's second half; the behaviour
is governed by `uuid` equality, not by which account object was passed. -/

def c8A : Account := { type := "microsoft", username := "Steve", uuid := "u0" }

def c8B : Account := { type := "offline", username := "Bob", uuid := "u0" }

def c8State : AuthState := { accounts := [c8A, c8B], active := some c8A }

/-- C8 counterexample: `c8B` is stored and not active, yet removing it
changes (clears) the active pointer, because it shares the active account's
`uuid` across a different kind. -/
theorem claim_C8_cex :
    c8B ∈ c8State.accounts ∧ c8B ≠ c8A ∧ c8State.active = some c8A ∧
    (removeAccount c8State c8B).active ≠ c8State.active := by
  refine ⟨by decide, by decide, rfl, by decide⟩

/-- C8 amended.  `remove_account` removes every stored account whose
`playerId` (`uuid`) equals the removed account's; the active pointer is
reset to the first remaining account (or none) exactly when the active
account's `uuid` equals the removed one's, and is untouched when the
`uuid`s differ — in particular removing a non-active account with a
distinct `uuid` never changes which account is active. -/
theorem claim_C8_amended (st : AuthState) (acc : Account) :
    ((removeAccount st acc).accounts = st.accounts.filter (fun a => a.uuid != acc.uuid)) ∧
    (∀ act, st.active = some act → act.uuid = acc.uuid →
      (removeAccount st acc).active = (st.accounts.filter (fun a => a.uuid != acc.uuid)).head?) ∧
    (∀ act, st.active = some act → act.uuid ≠ acc.uuid →
      (removeAccount st acc).active = st.active) := by
  refine ⟨rfl, ?_, ?_⟩
  · intro act h1 h2
    simp [removeAccount, h1, h2]
  · intro act h1 h2
    simp [removeAccount, h1, h2]

def c8C : Account := { type := "offline", username := "Carl", uuid := "u1" }

def c8State2 : AuthState := { accounts := [c8A, c8C], active := some c8A }

theorem claim_C8_amended_witness :
    (removeAccount c8State2 c8A).active
      = (c8State2.accounts.filter (fun a => a.uuid != c8A.uuid)).head? ∧
    (removeAccount c8State2 c8C).active = c8State2.active := by
  constructor
  · exact (claim_C8_amended c8State2 c8A).2.1 c8A rfl rfl
  · exact (claim_C8_amended c8State2 c8C).2.2 c8A rfl (by decide)

/-! ## C2 — base version installs strictly before the loader -/

/-- C2.  In the profile-install flow with a non-vanilla loader the recorded
collaborator-call trace (i) starts with the base-version install, which
appears nowhere else, so every loader install, if any, is strictly after it;
(ii) contains no loader install at all when the base install fails; (iii)
contains a loader install for every recognised loader kind when the base
install succeeds; and (iv) never contains a `delete_version` call — a failed
loader install does not roll the base version back. -/
theorem claim_C2 (baseInstall : String → Bool)
    (loaderInstall : String → String → String → Bool)
    (optifineModInstall : String → Bool) (mc lt lv : String)
    (_hlt : lt ≠ "vanilla") :
    (∃ rest, (installProfileFlow baseInstall loaderInstall optifineModInstall mc lt lv).1
        = InstallEvent.installBase mc :: rest ∧
      ∀ v, InstallEvent.installBase v ∉ rest) ∧
    (baseInstall mc = false → ∀ k m l, InstallEvent.installLoader k m l
      ∉ (installProfileFlow baseInstall loaderInstall optifineModInstall mc lt lv).1) ∧
    (baseInstall mc = true →
      lt = "fabric" ∨ lt = "forge" ∨ lt = "neoforge" ∨ lt = "quilt" ∨ lt = "optifine"
        ∨ lt = "forge+optifine" →
      ∃ k, InstallEvent.installLoader k mc lv
        ∈ (installProfileFlow baseInstall loaderInstall optifineModInstall mc lt lv).1) ∧
    (∀ v, InstallEvent.deleteVersion v
      ∉ (installProfileFlow baseInstall loaderInstall optifineModInstall mc lt lv).1) := by
  by_cases hb : baseInstall mc
  · unfold installProfileFlow
    simp only [hb, not_true_eq_false, if_false]
    split_ifs with h1 h2 h3 h4 <;>
      refine ⟨⟨_, rfl, by simp⟩, by simp [hb], ?_, by simp⟩
    · intro _ hcase
      rcases hcase with h | h | h | h | h | h <;> subst h <;> simp_all
    · exact fun _ _ => ⟨lt, by simp⟩
    · exact fun _ _ => ⟨"forge", by simp⟩
    · exact fun _ _ => ⟨"forge", by simp⟩
    · intro _ hcase
      rcases hcase with h | h | h | h | h | h <;> subst h <;> simp_all
  · have hb' : baseInstall mc = false := by
      revert hb
      cases baseInstall mc <;> simp
    refine ⟨⟨[], by simp [installProfileFlow, hb'], by simp⟩, ?_, ?_, ?_⟩
    · intro _ k m l
      simp [installProfileFlow, hb']
    · intro hbt
      rw [hb'] at hbt
      exact absurd hbt (by simp)
    · intro v
      simp [installProfileFlow, hb']

def c2Base : String → Bool := fun _ => true

def c2Loader : String → String → String → Bool := fun _ _ _ => false

def c2OptiMod : String → Bool := fun _ => true

theorem claim_C2_witness :
    (∃ rest, (installProfileFlow c2Base c2Loader c2OptiMod "1.20.1" "fabric" "0.15.7").1
        = InstallEvent.installBase "1.20.1" :: rest ∧
      ∀ v, InstallEvent.installBase v ∉ rest) ∧
    (∀ v, InstallEvent.deleteVersion v
      ∉ (installProfileFlow c2Base c2Loader c2OptiMod "1.20.1" "fabric" "0.15.7").1) := by
  have h := claim_C2 c2Base c2Loader c2OptiMod "1.20.1" "fabric" "0.15.7" (by decide)
  exact ⟨h.1, h.2.2.2⟩

/-! ## C6 — dependency installation is one level deep, required-only

`install_mod_with_dependencies` walks only the chosen version's own
dependency records: a required dependency is downloaded at the head of the
catalog's compatible-version list, every other relation type is skipped, and
the dependency's *own* required dependencies are never consulted — there is
no recursion.  The claim's "required dependencies of required dependencies
are also installed" is refuted on a three-mod chain A→B→C. -/

def c6DepC : ModDependency := { id := "C", type := "required" }

def c6DepB : ModDependency := { id := "B", type := "required" }

def c6VerC : ModVersion :=
  { id := "vc", mod_id := "C", name := "LibCore", version_number := "1.0"
    minecraft_versions := ["1.20.1"], loaders := ["fabric"], download_url := "u"
    file_name := "c.jar", file_size := 1, date_published := "", source := "modrinth"
    dependencies := [] }

def c6VerB : ModVersion :=
  { id := "vb", mod_id := "B", name := "LibMid", version_number := "1.0"
    minecraft_versions := ["1.20.1"], loaders := ["fabric"], download_url := "u"
    file_name := "b.jar", file_size := 1, date_published := "", source := "modrinth"
    dependencies := [c6DepC] }

def c6VerA : ModVersion :=
  { id := "va", mod_id := "A", name := "TopMod", version_number := "1.0"
    minecraft_versions := ["1.20.1"], loaders := ["fabric"], download_url := "u"
    file_name := "a.jar", file_size := 1, date_published := "", source := "modrinth"
    dependencies := [c6DepB] }

def c6Catalog : String → String → String → String → List ModVersion :=
  fun i _ _ _ => if i = "B" then [c6VerB] else if i = "C" then [c6VerC] else []

def c6Download : ModVersion → Option String := fun v => some v.file_name

/-- C6 counterexample: installing A (which requires B, which requires C,
with C resolvable in the catalog) downloads only `a.jar` and `b.jar`; the
transitive required dependency `c.jar` is not installed. -/
theorem claim_C6_cex :
    installModWithDependencies c6Catalog c6Download c6VerA "1.20.1" "fabric"
      = ["a.jar", "b.jar"] ∧
    "c.jar" ∉ installModWithDependencies c6Catalog c6Download c6VerA "1.20.1" "fabric" ∧
    c6VerB.dependencies = [c6DepC] ∧ c6DepC.type = "required" ∧
    c6Catalog "C" "modrinth" "1.20.1" "fabric" = [c6VerC] := by
  refine ⟨rfl, by decide, rfl, rfl, rfl⟩

/-- C6 amended.  The install downloads the chosen version and then exactly
one level of dependencies: each dependency record marked `"required"`
contributes the download of the first entry of the catalog's
compatible-version list for the target game version and loader (nothing when
that list is empty); optional/incompatible/tool relations contribute
nothing; dependencies of dependencies are never consulted. -/
theorem claim_C6_amended (getV : String → String → String → String → List ModVersion)
    (download : ModVersion → Option String) (version : ModVersion) (mc loader : String) :
    installModWithDependencies getV download version mc loader =
      (download version).toList ++
        (version.dependencies.filter (fun d => d.type == "required")).flatMap
          (fun dep => match getV dep.id version.source mc loader with
            | [] => []
            | dv :: _ => (download dv).toList) := by
  unfold installModWithDependencies
  rw [optMatch_eq_toList]
  congr 1
  have hdeps : ∀ l : List ModDependency,
      installRequiredDeps getV download version.source mc loader l
        = (l.filter (fun d => d.type == "required")).flatMap
            (fun dep => match getV dep.id version.source mc loader with
              | [] => []
              | dv :: _ => (download dv).toList) := by
    intro l
    induction l with
    | nil => rfl
    | cons d rest ih =>
      simp only [installRequiredDeps, List.filter_cons, ih]
      by_cases hd : d.type == "required"
      · simp only [hd, if_true, List.flatMap_cons]
        congr 1
        cases getV d.id version.source mc loader with
        | nil => rfl
        | cons dv _ => exact optMatch_eq_toList (download dv)
      · simp only [hd, if_false, List.nil_append, Bool.false_eq_true]
  exact hdeps version.dependencies

/-! ## Base64 correctness -/

theorem b64Val_b64Char : ∀ n < 64, b64Val (b64Char n) = some n := by decide

theorem b64Char_ne_pad : ∀ n < 64, b64Char n ≠ '=' := by decide

theorem b64Kept_b64Char : ∀ n < 64, b64Kept (b64Char n) = true := by decide

theorem b64Kept_pad : b64Kept '=' = true := by decide

theorem filter_b64Encode (bs : List Nat) (h : ∀ b ∈ bs, b < 256) :
    (b64EncodeChars bs).filter b64Kept = b64EncodeChars bs := by
  induction bs using b64EncodeChars.induct with
  | case1 b0 b1 b2 rest ih =>
    have h0 : b0 < 256 := h b0 (by simp)
    have h1 : b1 < 256 := h b1 (by simp)
    have h2 : b2 < 256 := h b2 (by simp)
    have k0 := b64Kept_b64Char (b0 / 4) (by omega)
    have k1 := b64Kept_b64Char (b0 % 4 * 16 + b1 / 16) (by omega)
    have k2 := b64Kept_b64Char (b1 % 16 * 4 + b2 / 64) (by omega)
    have k3 := b64Kept_b64Char (b2 % 64) (by omega)
    have ih' := ih (fun b hb => h b (by simp [hb]))
    simp [b64EncodeChars, List.filter_cons, k0, k1, k2, k3, ih']
  | case2 b0 b1 =>
    have h0 : b0 < 256 := h b0 (by simp)
    have h1 : b1 < 256 := h b1 (by simp)
    have k0 := b64Kept_b64Char (b0 / 4) (by omega)
    have k1 := b64Kept_b64Char (b0 % 4 * 16 + b1 / 16) (by omega)
    have k2 := b64Kept_b64Char (b1 % 16 * 4) (by omega)
    simp [b64EncodeChars, List.filter_cons, k0, k1, k2, b64Kept_pad]
  | case3 b0 =>
    have h0 : b0 < 256 := h b0 (by simp)
    have k0 := b64Kept_b64Char (b0 / 4) (by omega)
    have k1 := b64Kept_b64Char (b0 % 4 * 16) (by omega)
    simp [b64EncodeChars, List.filter_cons, k0, k1, b64Kept_pad]
  | case4 => rfl

theorem b64DecodeGroups_encode (bs : List Nat) (h : ∀ b ∈ bs, b < 256) :
    b64DecodeGroups (b64EncodeChars bs) = some bs := by
  induction bs using b64EncodeChars.induct with
  | case1 b0 b1 b2 rest ih =>
    have h0 : b0 < 256 := h b0 (by simp)
    have h1 : b1 < 256 := h b1 (by simp)
    have h2 : b2 < 256 := h b2 (by simp)
    have e0 := b64Val_b64Char (b0 / 4) (by omega)
    have e1 := b64Val_b64Char (b0 % 4 * 16 + b1 / 16) (by omega)
    have e2 := b64Val_b64Char (b1 % 16 * 4 + b2 / 64) (by omega)
    have e3 := b64Val_b64Char (b2 % 64) (by omega)
    have hne2 := b64Char_ne_pad (b1 % 16 * 4 + b2 / 64) (by omega)
    have hne3 := b64Char_ne_pad (b2 % 64) (by omega)
    have ih' := ih (fun b hb => h b (by simp [hb]))
    have r0 : b0 / 4 * 4 + (b0 % 4 * 16 + b1 / 16) / 16 = b0 := by omega
    have r1 : (b0 % 4 * 16 + b1 / 16) % 16 * 16 + (b1 % 16 * 4 + b2 / 64) / 4 = b1 := by
      omega
    have r2 : (b1 % 16 * 4 + b2 / 64) % 4 * 64 + b2 % 64 = b2 := by omega
    simp only [b64EncodeChars, b64DecodeGroups]
    rw [if_neg (by simp [hne2]), if_neg (by simp [hne3])]
    simp only [e0, e1, e2, e3, ih']
    rw [r0, r1, r2]
    rfl
  | case2 b0 b1 =>
    have h0 : b0 < 256 := h b0 (by simp)
    have h1 : b1 < 256 := h b1 (by simp)
    have e0 := b64Val_b64Char (b0 / 4) (by omega)
    have e1 := b64Val_b64Char (b0 % 4 * 16 + b1 / 16) (by omega)
    have e2 := b64Val_b64Char (b1 % 16 * 4) (by omega)
    have hne2 := b64Char_ne_pad (b1 % 16 * 4) (by omega)
    have r0 : b0 / 4 * 4 + (b0 % 4 * 16 + b1 / 16) / 16 = b0 := by omega
    have r1 : (b0 % 4 * 16 + b1 / 16) % 16 * 16 + b1 % 16 * 4 / 4 = b1 := by omega
    simp only [b64EncodeChars, b64DecodeGroups]
    rw [if_neg (by simp [hne2]), if_pos (by simp)]
    simp only [e0, e1, e2]
    rw [r0, r1]
  | case3 b0 =>
    have h0 : b0 < 256 := h b0 (by simp)
    have e0 := b64Val_b64Char (b0 / 4) (by omega)
    have e1 := b64Val_b64Char (b0 % 4 * 16) (by omega)
    have r0 : b0 / 4 * 4 + b0 % 4 * 16 / 16 = b0 := by omega
    simp only [b64EncodeChars, b64DecodeGroups]
    rw [if_pos (by simp)]
    simp only [e0, e1]
    rw [r0]
  | case4 => rfl

theorem urlsafeB64_roundtrip (bs : List Nat) (h : ∀ b ∈ bs, b < 256) :
    urlsafeB64Decode (urlsafeB64Encode bs) = some bs := by
  unfold urlsafeB64Encode urlsafeB64Decode
  rw [filter_b64Encode bs h, b64DecodeGroups_encode bs h]

/-! ## Correctness of the concrete codec -/

theorem natFromLE_natBytesLEAux : ∀ fuel n, n ≤ fuel →
    natFromLE (natBytesLEAux fuel n) = n := by
  intro fuel
  induction fuel with
  | zero =>
    intro n h
    have : n = 0 := Nat.le_zero.mp h
    subst this
    rfl
  | succ f ih =>
    intro n h
    cases n with
    | zero => rfl
    | succ k =>
      have hlt : (k + 1) / 256 < k + 1 := Nat.div_lt_self (by omega) (by omega)
      have hdiv : (k + 1) / 256 ≤ f := by omega
      simp only [natBytesLEAux, natFromLE, ih _ hdiv]
      omega

theorem natFromLE_natBytesLE (n : Nat) : natFromLE (natBytesLE n) = n :=
  natFromLE_natBytesLEAux n n le_rfl

theorem readByteSeq_enc (bs : List Nat) (t : List Nat) :
    readByteSeq (encByteSeq bs ++ t) = some (bs, t) := by
  induction bs with
  | nil => rfl
  | cons b rest ih =>
    simp only [encByteSeq, List.cons_append, readByteSeq, List.append_eq]
    rw [ih]
    rfl

theorem readNatM_enc (n : Nat) (t : List Nat) :
    readNatM (encNatM n ++ t) = some (n, t) := by
  unfold readNatM encNatM
  rw [readByteSeq_enc]
  simp [natFromLE_natBytesLE]

theorem readCharSeq_enc (cs : List Char) (t : List Nat) :
    readCharsM (encCharSeq cs ++ t) = some (cs, t) := by
  induction cs with
  | nil => rfl
  | cons c rest ih =>
    have hc : c.toNat < 4294967296 := UInt32.toNat_lt c.val
    have harith : c.toNat / 16777216 * 16777216 + c.toNat / 65536 % 256 * 65536
        + c.toNat / 256 % 256 * 256 + c.toNat % 256 = c.toNat := by omega
    simp only [encCharSeq, encCharM, List.cons_append, List.append_assoc, readCharsM,
      List.append_eq, List.nil_append]
    rw [ih]
    simp only [Option.map_some', harith, Char.ofNat_toNat]

theorem readStringM_enc (s : String) (t : List Nat) :
    readStringM (encStringM s ++ t) = some (s, t) := by
  unfold readStringM encStringM
  rw [readCharSeq_enc]
  cases s
  rfl

theorem readOptStrM_enc (o : Option String) (t : List Nat) :
    readOptStrM (encOptStrM o ++ t) = some (o, t) := by
  cases o with
  | none => rfl
  | some s =>
    simp only [encOptStrM, List.cons_append, readOptStrM]
    rw [readStringM_enc]
    rfl

theorem readModM_enc (m : ShareMod) (t : List Nat) :
    readModM (encModM m ++ t) = some (m, t) := by
  unfold readModM encModM
  simp only [List.append_assoc]
  rw [readStringM_enc]
  simp only
  rw [readStringM_enc]
  simp only
  rw [readOptStrM_enc]
  simp only
  rw [readStringM_enc]

theorem readModsN_enc (l : List ShareMod) (t : List Nat) :
    readModsN l.length (encModSeq l ++ t) = some (l, t) := by
  induction l with
  | nil => rfl
  | cons m rest ih =>
    simp only [List.length_cons, encModSeq, List.append_assoc, readModsN]
    rw [readModM_enc]
    simp only
    rw [ih]
    rfl

theorem readManifestM_enc (m : Manifest) (t : List Nat) :
    readManifestM (encManifestBody m ++ t) = some (m, t) := by
  unfold readManifestM encManifestBody encModsM
  simp only [List.append_assoc]
  rw [readNatM_enc]
  simp only
  rw [readStringM_enc]
  simp only
  rw [readStringM_enc]
  simp only
  rw [readOptStrM_enc]
  simp only
  rw [readOptStrM_enc]
  simp only
  rw [readNatM_enc]
  simp only
  rw [readModsN_enc]

theorem mockDeser_mockSer (m : Manifest) : mockDeser (mockSer m) = some m := by
  have h := readManifestM_enc m []
  rw [List.append_nil] at h
  simp [mockDeser, mockSer, h]

theorem mem_natBytesLEAux : ∀ fuel n, ∀ b ∈ natBytesLEAux fuel n, b < 256 := by
  intro fuel
  induction fuel with
  | zero =>
    intro n b hb
    cases n <;> simp [natBytesLEAux] at hb
  | succ f ih =>
    intro n b hb
    cases n with
    | zero => simp [natBytesLEAux] at hb
    | succ k =>
      simp only [natBytesLEAux, List.mem_cons] at hb
      rcases hb with h | h
      · omega
      · exact ih _ b h

theorem mem_encByteSeq : ∀ bs : List Nat, (∀ x ∈ bs, x < 256) →
    ∀ b ∈ encByteSeq bs, b < 256 := by
  intro bs
  induction bs with
  | nil =>
    intro _ b hb
    simp [encByteSeq] at hb
    omega
  | cons x rest ih =>
    intro h b hb
    simp only [encByteSeq, List.mem_cons] at hb
    rcases hb with rfl | rfl | hb
    · omega
    · exact h _ (List.mem_cons_self _ _)
    · exact ih (fun y hy => h y (List.mem_cons_of_mem _ hy)) b hb

theorem mem_encNatM (n : Nat) : ∀ b ∈ encNatM n, b < 256 :=
  mem_encByteSeq (natBytesLE n) (mem_natBytesLEAux n n)

theorem mem_encCharM (c : Char) : ∀ b ∈ encCharM c, b < 256 := by
  have hc : c.toNat < 4294967296 := UInt32.toNat_lt c.val
  intro b hb
  simp only [encCharM, List.mem_cons, List.not_mem_nil, or_false] at hb
  rcases hb with rfl | rfl | rfl | rfl <;> omega

theorem mem_encCharSeq (cs : List Char) : ∀ b ∈ encCharSeq cs, b < 256 := by
  induction cs with
  | nil =>
    intro b hb
    simp [encCharSeq] at hb
    omega
  | cons c rest ih =>
    intro b hb
    simp only [encCharSeq, List.cons_append, List.mem_cons, List.mem_append] at hb
    rcases hb with rfl | hb | hb
    · omega
    · exact mem_encCharM c b hb
    · exact ih b hb

theorem mem_encStringM (s : String) : ∀ b ∈ encStringM s, b < 256 :=
  mem_encCharSeq s.toList

theorem mem_encOptStrM (o : Option String) : ∀ b ∈ encOptStrM o, b < 256 := by
  cases o with
  | none =>
    intro b hb
    simp [encOptStrM] at hb
    omega
  | some s =>
    intro b hb
    simp only [encOptStrM, List.mem_cons] at hb
    rcases hb with rfl | hb
    · omega
    · exact mem_encStringM s b hb

theorem mem_encModM (m : ShareMod) : ∀ b ∈ encModM m, b < 256 := by
  intro b hb
  simp only [encModM, List.mem_append] at hb
  rcases hb with ((hb | hb) | hb) | hb
  · exact mem_encStringM m.id b hb
  · exact mem_encStringM m.src b hb
  · exact mem_encOptStrM m.v b hb
  · exact mem_encStringM m.n b hb

theorem mem_encModSeq (l : List ShareMod) : ∀ b ∈ encModSeq l, b < 256 := by
  induction l with
  | nil => intro b hb; simp [encModSeq] at hb
  | cons m rest ih =>
    intro b hb
    simp only [encModSeq, List.mem_append] at hb
    rcases hb with hb | hb
    · exact mem_encModM m b hb
    · exact ih b hb

theorem mem_encManifestBody (m : Manifest) : ∀ b ∈ encManifestBody m, b < 256 := by
  intro b hb
  simp only [encManifestBody, encModsM, List.mem_append] at hb
  rcases hb with ((((hb | hb) | hb) | hb) | hb) | hb | hb
  · exact mem_encNatM m.v b hb
  · exact mem_encStringM m.name b hb
  · exact mem_encStringM m.mc b hb
  · exact mem_encOptStrM m.loader b hb
  · exact mem_encOptStrM m.loader_v b hb
  · exact mem_encNatM m.mods.length b hb
  · exact mem_encModSeq m.mods b hb

theorem mem_mockSer (m : Manifest) : ∀ b ∈ mockSer m, b < 256 := by
  intro b hb
  simp only [mockSer, List.mem_cons] at hb
  rcases hb with rfl | rfl | hb
  · omega
  · omega
  · exact mem_encManifestBody m b hb

theorem mockSer_magic (m : Manifest) : (mockSer m).take 2 = [31, 139] := rfl

theorem mockDeser_not_gzip (bs : List Nat) (h : bs.take 2 ≠ [31, 139]) :
    mockDeser bs = none := by
  match bs with
  | [] => rfl
  | [b] => rfl
  | b0 :: b1 :: body =>
    have hne : ¬(b0 = 31 ∧ b1 = 139) := by
      rintro ⟨rfl, rfl⟩
      exact h rfl
    simp [mockDeser, hne]

/-- The concrete codec: an injective serializer behind the gzip header,
satisfying every obligation of `ManifestCodec`. -/
def mockManifestCodec : ManifestCodec :=
  { ser := mockSer, deser := mockDeser, ser_lt := mem_mockSer
    roundtrip := mockDeser_mockSer, gzip_magic := mockSer_magic
    deser_magic := mockDeser_not_gzip }

/-! ## Share-code lemmas -/

theorem toList_code (cs : List Char) :
    ("CL1-" ++ String.mk cs).toList = 'C' :: 'L' :: '1' :: '-' :: cs := by
  simp [String.data_append]

theorem stripShareTag_CL1 (e : List Char) :
    stripShareTag ('C' :: 'L' :: '1' :: '-' :: e) = e := by
  simp [stripShareTag, startsWithChars]

theorem stripShareTag_CLmid (mid e : List Char) (hmid : '-' ∉ mid) :
    stripShareTag ('C' :: 'L' :: mid ++ '-' :: e) = e := by
  by_cases hA : startsWithChars ('C' :: 'L' :: mid ++ '-' :: e) ['C', 'L', '1', '-'] = true
  · -- the exact-tag branch can only fire when `mid = ['1']`
    have hmid1 : mid = ['1'] := by
      cases mid with
      | nil => simp [startsWithChars] at hA
      | cons m0 mid' =>
        cases mid' with
        | nil =>
          simp only [startsWithChars, List.cons_append, List.nil_append,
            Bool.and_eq_true, decide_eq_true_eq] at hA
          simp [hA.2.2.1]
        | cons m1 mid'' =>
          simp only [startsWithChars, List.cons_append, Bool.and_eq_true,
            decide_eq_true_eq] at hA
          rw [hA.2.2.2.1] at hmid
          exact absurd (List.mem_cons_of_mem m0 (List.mem_cons_self '-' mid'')) hmid
    subst hmid1
    simp [stripShareTag, startsWithChars]
  · have hA' : startsWithChars ('C' :: 'L' :: mid ++ '-' :: e) ['C', 'L', '1', '-'] = false := by
      revert hA
      cases startsWithChars ('C' :: 'L' :: mid ++ '-' :: e) ['C', 'L', '1', '-'] <;> simp
    have hCL : startsWithChars ('C' :: 'L' :: mid ++ '-' :: e) ['C', 'L'] = true := by
      simp [startsWithChars]
    have hdash : '-' ∉ 'C' :: 'L' :: mid := by
      simp only [List.mem_cons, not_or]
      exact ⟨by decide, by decide, hmid⟩
    have hbreak := breakOnDash_of_split ('C' :: 'L' :: mid) e hdash
    simp only [List.cons_append] at hbreak hA' hCL
    simp [stripShareTag, hA', hCL, hbreak]

theorem stripShareTag_noCL (e : List Char) (he : startsWithChars e ['C', 'L'] = false) :
    stripShareTag e = e := by
  have h4 : startsWithChars e ['C', 'L', '1', '-'] = false := by
    cases e with
    | nil => rfl
    | cons c0 rest =>
      cases rest with
      | nil => simp [startsWithChars]
      | cons c1 rest' =>
        simp only [startsWithChars, Bool.and_eq_false_iff] at he ⊢
        rcases he with h | h
        · exact Or.inl h
        · rcases h with h | h
          · exact Or.inr (Or.inl h)
          · simp [startsWithChars] at h
  simp [stripShareTag, h4, he]

theorem parsePipeline_ser (codec : ManifestCodec) (mf : Manifest) :
    parsePipeline codec (urlsafeB64Encode (codec.ser mf)) =
      some { name := mf.name, minecraft_version := mf.mc, loader_type := mf.loader
             loader_version := mf.loader_v, mods := mf.mods.map expandShareMod } := by
  unfold parsePipeline
  rw [urlsafeB64_roundtrip _ (codec.ser_lt mf)]
  simp only [codec.roundtrip]

/-- The decoded entry `parse_manifest_code` reconstructs for a shareable
installed mod: same registry id, same provenance, same remote version id,
display name truncated to 30 characters. -/
def decodedOfMod (m : InstalledMod) : DecodedMod :=
  { mod_id := m.mod_id.getD "", source := m.source, version_id := m.version_id
    name := takeChars 30 (m.name.getD "") }

theorem buildShareMods_map : ∀ (mods : List InstalledMod) (sms : List ShareMod),
    buildShareMods mods = some sms →
    sms.map expandShareMod = (mods.filter shareableMod).map decodedOfMod := by
  intro mods
  induction mods with
  | nil =>
    intro sms h
    simp only [buildShareMods, Option.some.injEq] at h
    subst h
    rfl
  | cons m rest ih =>
    intro sms h
    by_cases hm : shareableMod m
    · rw [show buildShareMods (m :: rest) = if shareableMod m then
          (match m.name with
            | none => none
            | some nm => (buildShareMods rest).map (fun tail =>
                { id := m.mod_id.getD ""
                  src := if m.source == "modrinth" then "mr" else "cf"
                  v := m.version_id, n := takeChars 30 nm } :: tail))
          else buildShareMods rest from rfl, if_pos hm] at h
      cases hname : m.name with
      | none =>
        rw [hname] at h
        exact absurd h (by simp)
      | some nm =>
        rw [hname] at h
        rcases Option.map_eq_some'.mp h with ⟨tail, htail, hsms⟩
        subst hsms
        have hsource : (if m.source = "modrinth" then "modrinth" else "curseforge")
            = m.source := by
          by_cases hsrc : m.source = "modrinth"
          · simp [hsrc]
          · have hcf : m.source == "curseforge" := by
              simp only [shareableMod, Bool.and_eq_true, Bool.or_eq_true] at hm
              rcases hm.1 with h' | h'
              · exact absurd (by simpa using h') hsrc
              · exact h'
            have : m.source = "curseforge" := by simpa using hcf
            simp [hsrc, this]
        simp only [List.map_cons, List.filter_cons, hm, if_true, ih tail htail]
        congr 1
        simp [expandShareMod, decodedOfMod, hname, hsource]
    · rw [show buildShareMods (m :: rest) = if shareableMod m then
          (match m.name with
            | none => none
            | some nm => (buildShareMods rest).map (fun tail =>
                { id := m.mod_id.getD ""
                  src := if m.source == "modrinth" then "mr" else "cf"
                  v := m.version_id, n := takeChars 30 nm } :: tail))
          else buildShareMods rest from rfl, if_neg hm] at h
      simp only [List.filter_cons, hm, if_false, Bool.false_eq_true]
      exact ih sms h

/-! ## C4 — the share-code round trip -/

/-- C4.  Whenever `generate_manifest_code` returns a code, parsing that code
recovers the profile's game version, loader kind and loader version
unchanged, and exactly the shareable subset of its installed mods (those
with provenance modrinth/curseforge and a non-empty `mod_id`), each with its
registry id, provenance and remote version id intact; every mod without a
registry id is absent from the decoded result. -/
theorem claim_C4 (codec : ManifestCodec) (p : Profile) (s : String)
    (h : generateManifestCode codec p = .code s) :
    parseManifestCode codec s =
      some { name := takeChars 50 p.name, minecraft_version := p.minecraft_version
             loader_type := p.loader_type, loader_version := p.loader_version
             mods := (p.installed_mods.filter shareableMod).map decodedOfMod } := by
  unfold generateManifestCode at h
  cases hb : buildShareMods p.installed_mods with
  | none =>
    rw [hb] at h
    exact absurd h (by simp)
  | some sms =>
    rw [hb] at h
    have hs : "CL1-" ++ String.mk (urlsafeB64Encode (codec.ser (manifestOf p sms))) = s := by
      injection h
    subst hs
    unfold parseManifestCode
    rw [toList_code, stripShareTag_CL1, parsePipeline_ser]
    simp only [manifestOf]
    rw [buildShareMods_map p.installed_mods sms hb]

def c4Profile : Profile :=
  { id := "p", name := "My Pack", minecraft_version := "1.20.1"
    loader_type := some "fabric", loader_version := some "0.15.7"
    installed_mods :=
      [ { filename := "sodium.jar", source := "modrinth", mod_id := some "AANobbMI"
          version_id := some "v1", name := some "Sodium" },
        { filename := "hand-placed.jar", source := "local", mod_id := none
          version_id := none, name := some "Hand Placed" } ] }

def c4Code : String :=
  match generateManifestCode mockManifestCodec c4Profile with
  | .code s => s
  | .typeError => ""

set_option maxRecDepth 8000 in
theorem claim_C4_witness :
    generateManifestCode mockManifestCodec c4Profile = .code c4Code ∧
    parseManifestCode mockManifestCodec c4Code =
      some { name := "My Pack", minecraft_version := "1.20.1"
             loader_type := some "fabric", loader_version := some "0.15.7"
             mods := [{ mod_id := "AANobbMI", source := "modrinth"
                        version_id := some "v1", name := "Sodium" }] } := by
  constructor
  · rfl
  · exact claim_C4 mockManifestCodec c4Profile c4Code rfl

/-! ## C5 — tag handling on decode

`parse_manifest_code` strips a tag only when the code starts with `"CL"`:
exactly `"CL1-"` is dropped, and any other `"CL…"` code is split on its
first dash.  A code with the tag absent is decoded as-is — which succeeds
for generated payloads, since their first character encodes the gzip header
byte `0x1f` and is never `'C'`.  But a tag *not* starting with `"CL"` is not
stripped at all: the whole string, tag included, is fed to base64 and then
gunzip, which fails on the shifted stream — no split on the first dash ever
happens, and parsing returns `None` instead of the parsed result. -/

def c5Payload : String := String.mk (c4Code.toList.drop 4)

set_option maxRecDepth 8000 in
/-- C5 counterexample: the payload decodes on its own and under the `"CL1-"`
tag, yet under the alternate tag `"XX1-"` the parse returns `None` — the
input is not split on its first `"-"` as the claim describes. -/
theorem claim_C5_cex :
    (parseManifestCode mockManifestCodec ("CL1-" ++ c5Payload)).isSome = true ∧
    (parseManifestCode mockManifestCodec c5Payload).isSome = true ∧
    parseManifestCode mockManifestCodec ("XX1-" ++ c5Payload) = none := by
  refine ⟨rfl, rfl, rfl⟩

/-- C5 amended.  Decoding tolerates only tags beginning with `"CL"`: for a
generated code `"CL1-" ++ e`, any tag `"CL<mid>-"` with a dash-free `mid` is
stripped by splitting on the first dash and decodes to the same result, and
the bare payload `e` (tag absent) also decodes to the same result provided
it does not itself begin with `"CL"`; the result is a parsed manifest, not a
failure.  (Tags not beginning with `"CL"` are not stripped and fail, see the
counterexample.) -/
theorem claim_C5_amended (codec : ManifestCodec) (p : Profile) (s : String)
    (e mid : List Char)
    (hgen : generateManifestCode codec p = .code s)
    (hs : s.toList = 'C' :: 'L' :: '1' :: '-' :: e)
    (hmid : '-' ∉ mid)
    (he : startsWithChars e ['C', 'L'] = false) :
    parseManifestCode codec (String.mk ('C' :: 'L' :: mid ++ '-' :: e))
      = parseManifestCode codec s ∧
    parseManifestCode codec (String.mk e) = parseManifestCode codec s ∧
    parseManifestCode codec s ≠ none := by
  have h2 : parseManifestCode codec s = parsePipeline codec e := by
    unfold parseManifestCode
    rw [hs, stripShareTag_CL1]
  have h1 : parseManifestCode codec (String.mk ('C' :: 'L' :: mid ++ '-' :: e))
      = parsePipeline codec e := by
    unfold parseManifestCode
    rw [show (String.mk ('C' :: 'L' :: mid ++ '-' :: e)).toList
        = 'C' :: 'L' :: mid ++ '-' :: e from rfl]
    rw [stripShareTag_CLmid mid e hmid]
  have h3 : parseManifestCode codec (String.mk e) = parsePipeline codec e := by
    unfold parseManifestCode
    rw [show (String.mk e).toList = e from rfl, stripShareTag_noCL e he]
  refine ⟨h1.trans h2.symm, h3.trans h2.symm, ?_⟩
  unfold generateManifestCode at hgen
  cases hb : buildShareMods p.installed_mods with
  | none =>
    rw [hb] at hgen
    exact absurd hgen (by simp)
  | some sms =>
    rw [hb] at hgen
    have hse : "CL1-" ++ String.mk (urlsafeB64Encode (codec.ser (manifestOf p sms))) = s := by
      injection hgen
    have he' : e = urlsafeB64Encode (codec.ser (manifestOf p sms)) := by
      have hlist := hs
      rw [← hse, toList_code] at hlist
      simpa using hlist.symm
    rw [h2, he', parsePipeline_ser]
    simp

set_option maxRecDepth 8000 in
theorem claim_C5_amended_witness :
    parseManifestCode mockManifestCodec
        (String.mk ('C' :: 'L' :: ['9'] ++ '-' :: c4Code.toList.drop 4))
      = parseManifestCode mockManifestCodec c4Code ∧
    parseManifestCode mockManifestCodec c4Code ≠ none := by
  have h := claim_C5_amended mockManifestCodec c4Profile c4Code
    (c4Code.toList.drop 4) ['9'] rfl rfl (by decide) rfl
  exact ⟨h.1, h.2.2⟩

end CraftLauncher
